import Mathlib

set_option maxRecDepth 8192

/-!
Verification development for the carshop-hmac-proxy repository.

The repository is a request-signing reverse proxy: it fetches an HMAC secret
from a remote secret store (with an in-memory coalescing cache), signs each
inbound request with HMAC-SHA256 over a canonical string, forwards the request
to a configured backend, and relays the backend response.

This file shallowly embeds the JavaScript sources:
  - src/secrets.js        (getSecret / clearCache: cache with request coalescing)
  - src/signing.js        (buildCanonicalString / computeSignature / signRequest,
                           plus the legacy caller-supplied-timestamp variant)
  - src/lambda/jwt-generator.js (signature middleware, forwarding config,
                           response relay and transport-error mapping)

JavaScript objects used as string-keyed maps are embedded as association
lists; the async promise bookkeeping of the cache becomes an explicit state
machine with fetch identifiers; HMAC-SHA256 is implemented over byte lists
(Nat values below 256) with 32-bit arithmetic done via explicit mod 2^32.
-/

namespace CarShopProxy

/-! ### Association lists, mirroring plain JavaScript objects used as maps -/

def lookupA {β : Type} : List (String × β) → String → Option β
  | [], _ => none
  | (k2, v) :: rest, k => if k2 = k then some v else lookupA rest k

/-- Embeds JS property assignment `obj[k] = v` (replaces the existing key in
place, otherwise appends). -/
def insertA {β : Type} : List (String × β) → String → β → List (String × β)
  | [], k, v => [(k, v)]
  | (k2, w) :: rest, k, v =>
    if k2 = k then (k, v) :: rest else (k2, w) :: insertA rest k v

/-- Embeds JS `delete obj[k]`. -/
def eraseA {β : Type} : List (String × β) → String → List (String × β)
  | [], _ => []
  | (k2, v) :: rest, k =>
    if k2 = k then eraseA rest k else (k2, v) :: eraseA rest k

/-! ### Secret cache (src/secrets.js)

`getSecret` keeps two module-level objects: `cachedSecrets` (resolved values)
and `secretPromises` (in-flight fetches).  We embed the pair, together with a
counter generating fresh fetch identifiers, as an explicit state.  One call to
`getSecret` either returns a cached value (`hit`), awaits an in-flight fetch
(`join`, carrying the identifier of the promise being awaited), or starts a
new remote fetch (`start`).  Completion of a remote fetch (the body of the
async IIFE in the source) is `runFetch`. -/

def cacheKey (secretName region : String) : String :=
  secretName ++ ":" ++ region

/-- The WhiteSpace and LineTerminator code points stripped by JS
`String.prototype.trim`. -/
def jsWhitespace (c : Char) : Bool :=
  c.toNat = 0x9 || c.toNat = 0xa || c.toNat = 0xb || c.toNat = 0xc ||
  c.toNat = 0xd || c.toNat = 0x20 || c.toNat = 0xa0 || c.toNat = 0x1680 ||
  (0x2000 ≤ c.toNat && c.toNat ≤ 0x200a) || c.toNat = 0x2028 ||
  c.toNat = 0x2029 || c.toNat = 0x202f || c.toNat = 0x205f ||
  c.toNat = 0x3000 || c.toNat = 0xfeff

/-- JS `secret.trim()`: strip leading and trailing whitespace. -/
def jsTrim (s : String) : String :=
  String.mk (((s.toList.dropWhile jsWhitespace).reverse.dropWhile jsWhitespace).reverse)

/-- JS `method.toUpperCase()` on ASCII data (HTTP method names). -/
def jsToUpper (s : String) : String :=
  String.mk (s.toList.map Char.toUpper)

/-- JS `header.toLowerCase()` on ASCII data (HTTP header names). -/
def jsToLower (s : String) : String :=
  String.mk (s.toList.map Char.toLower)

structure CacheState where
  cached : List (String × String)
  pending : List (String × Nat)
  nextId : Nat
deriving DecidableEq

def emptyCache : CacheState := ⟨[], [], 0⟩

inductive GetResult where
  | hit (v : String)
  | join (id : Nat)
  | start (id : Nat)
deriving DecidableEq

/-- The JS truthiness test `if (cachedSecrets[cacheKey])`: a hit only when
the key is present with a non-empty (truthy) string. -/
def cacheHitValue (s : CacheState) (k : String) : Option String :=
  match lookupA s.cached k with
  | some v => if v = "" then none else some v
  | none => none

/-- One call to `getSecret(secretName, region)` up to its first suspension
point. -/
def getSecretStep (s : CacheState) (secretName region : String) :
    GetResult × CacheState :=
  let k := cacheKey secretName region
  match cacheHitValue s k with
  | some v => (.hit v, s)
  | none =>
    match lookupA s.pending k with
    | some fid => (.join fid, s)
    | none =>
      (.start s.nextId,
        { cached := s.cached,
          pending := insertA s.pending k s.nextId,
          nextId := s.nextId + 1 })

/-- The message wrapped around a failed store request:
`Failed to fetch secret from AWS Secrets Manager: error.message`. -/
def fetchFailureMessage (msg : String) : String :=
  "Failed to fetch secret from AWS Secrets Manager: " ++ msg

/-- Completion of the in-flight remote fetch for `(secretName, region)`:
on success the value is trimmed and cached and the promise entry is removed;
on failure the promise entry is removed and the wrapped error is thrown.
This is the try/catch/finally body of the async IIFE in `getSecret`. -/
def runFetch (s : CacheState) (secretName region : String)
    (remote : Except String String) : Except String String × CacheState :=
  let k := cacheKey secretName region
  match remote with
  | .ok raw =>
    (.ok (jsTrim raw),
      { cached := insertA s.cached k (jsTrim raw),
        pending := eraseA s.pending k,
        nextId := s.nextId })
  | .error msg =>
    (.error (fetchFailureMessage msg),
      { cached := s.cached,
        pending := eraseA s.pending k,
        nextId := s.nextId })

/-- `clearCache(secretName = null, region = process.env.AWS_REGION || 'us-east-1')`.
`defaultRegion` stands for the resolved environment default.  The one-key
branch is guarded by JS truthiness of `secretName` (null/absent or empty
string clears everything). -/
def clearCache (defaultRegion : String) (s : CacheState)
    (secretName region : Option String) : CacheState :=
  match secretName with
  | some n =>
    if n = "" then { cached := [], pending := [], nextId := s.nextId }
    else
      let k := cacheKey n (region.getD defaultRegion)
      { cached := eraseA s.cached k,
        pending := eraseA s.pending k,
        nextId := s.nextId }
  | none => { cached := [], pending := [], nextId := s.nextId }

/-! ### Cache traces

An epoch (the interval between cache clears) is a list of events: `req` is
one call to `getSecret` reaching its cache checks, `ok`/`fail` is the
completion of the in-flight remote fetch for a key.  `runTrace` counts, for a
given cache-key string, the `getSecret` calls that started a remote fetch. -/

inductive CEvent where
  | req (secretName region : String)
  | ok (secretName region raw : String)
  | fail (secretName region msg : String)
deriving DecidableEq

def runTrace (k : String) : CacheState → List CEvent → Nat × CacheState
  | s, [] => (0, s)
  | s, .req n r :: rest =>
    let p := getSecretStep s n r
    let tail := runTrace k p.2 rest
    (if cacheKey n r = k then
        (match p.1 with
         | .start _ => 1
         | _ => 0) + tail.1
      else tail.1, tail.2)
  | s, .ok n r raw :: rest => runTrace k (runFetch s n r (.ok raw)).2 rest
  | s, .fail n r msg :: rest => runTrace k (runFetch s n r (.error msg)).2 rest

/-- A trace is well formed from a state when every completion event refers to
a fetch that is actually in flight for its key. -/
def traceWF : CacheState → List CEvent → Bool
  | _, [] => true
  | s, .req n r :: rest => traceWF (getSecretStep s n r).2 rest
  | s, .ok n r raw :: rest =>
    (lookupA s.pending (cacheKey n r)).isSome &&
      traceWF (runFetch s n r (.ok raw)).2 rest
  | s, .fail n r msg :: rest =>
    (lookupA s.pending (cacheKey n r)).isSome &&
      traceWF (runFetch s n r (.error msg)).2 rest

def noFailures : List CEvent → Bool
  | [] => true
  | .fail _ _ _ :: _ => false
  | _ :: rest => noFailures rest

/-- Every successful completion in the trace delivers a value that is
non-empty after trimming (JS truthiness makes an empty cached string
invisible to the cache-hit test). -/
def okTrimsNonempty : List CEvent → Bool
  | [] => true
  | .ok _ _ raw :: rest => (jsTrim raw != "") && okTrimsNonempty rest
  | _ :: rest => okTrimsNonempty rest

/-- Does the trace contain a `getSecret` call for cache key `k`? -/
def hasReqFor (k : String) : List CEvent → Bool
  | [] => false
  | .req n r :: rest => (cacheKey n r == k) || hasReqFor k rest
  | _ :: rest => hasReqFor k rest

end CarShopProxy

namespace CarShopProxy

/-! ### HMAC-SHA256 (the semantics of Node's `crypto.createHmac('sha256', secret)`)

SHA-256 per FIPS 180-4 over byte lists (each byte a `Nat` below 256), with
32-bit words as `Nat` reduced mod 2^32.  HMAC per RFC 2104 with the SHA-256
block size of 64 bytes.  Strings are hashed through their UTF-8 bytes, which
is what `hmac.update(string)` does in Node. -/

def w32 (n : Nat) : Nat := n % 4294967296

def rotr (k n : Nat) : Nat := w32 ((n >>> k) ||| (n <<< (32 - k)))

def bnot32 (n : Nat) : Nat := n ^^^ 4294967295

def bigSigma0 (n : Nat) : Nat := rotr 2 n ^^^ rotr 13 n ^^^ rotr 22 n

def bigSigma1 (n : Nat) : Nat := rotr 6 n ^^^ rotr 11 n ^^^ rotr 25 n

def smallSigma0 (n : Nat) : Nat := rotr 7 n ^^^ rotr 18 n ^^^ (n >>> 3)

def smallSigma1 (n : Nat) : Nat := rotr 17 n ^^^ rotr 19 n ^^^ (n >>> 10)

def chFn (x y z : Nat) : Nat := (x &&& y) ^^^ (bnot32 x &&& z)

def majFn (x y z : Nat) : Nat := (x &&& y) ^^^ (x &&& z) ^^^ (y &&& z)

def k256 : List Nat :=
  [1116352408, 1899447441, 3049323471, 3921009573,
   961987163, 1508970993, 2453635748, 2870763221,
   3624381080, 310598401, 607225278, 1426881987,
   1925078388, 2162078206, 2614888103, 3248222580,
   3835390401, 4022224774, 264347078, 604807628,
   770255983, 1249150122, 1555081692, 1996064986,
   2554220882, 2821834349, 2952996808, 3210313671,
   3336571891, 3584528711, 113926993, 338241895,
   666307205, 773529912, 1294757372, 1396182291,
   1695183700, 1986661051, 2177026350, 2456956037,
   2730485921, 2820302411, 3259730800, 3345764771,
   3516065817, 3600352804, 4094571909, 275423344,
   430227734, 506948616, 659060556, 883997877,
   958139571, 1322822218, 1537002063, 1747873779,
   1955562222, 2024104815, 2227730452, 2361852424,
   2428436474, 2756734187, 3204031479, 3329325298]

structure Hash8 where
  a : Nat
  b : Nat
  c : Nat
  d : Nat
  e : Nat
  f : Nat
  g : Nat
  h : Nat
deriving DecidableEq

def initHash : Hash8 :=
  ⟨1779033703, 3144134277, 1013904242, 2773480762,
   1359893119, 2600822924, 528734635, 1541459225⟩

/-- Group a 64-byte block into 16 big-endian 32-bit words. -/
def toWords : List Nat → List Nat
  | b0 :: b1 :: b2 :: b3 :: rest =>
    (b0 * 16777216 + b1 * 65536 + b2 * 256 + b3) :: toWords rest
  | _ => []

/-- Extend the 16 block words to the 64-word message schedule.  The
accumulator holds the words produced so far in reverse order. -/
def scheduleAux : Nat → List Nat → List Nat
  | 0, acc => acc
  | n + 1, acc =>
    let nw := w32 (smallSigma1 (acc.getD 1 0) + acc.getD 6 0 +
                   smallSigma0 (acc.getD 14 0) + acc.getD 15 0)
    scheduleAux n (nw :: acc)

def schedule (w16 : List Nat) : List Nat :=
  (scheduleAux 48 w16.reverse).reverse

def rounds : List (Nat × Nat) → Hash8 → Hash8
  | [], st => st
  | (wi, ki) :: rest, st =>
    let t1 := w32 (st.h + bigSigma1 st.e + chFn st.e st.f st.g + ki + wi)
    let t2 := w32 (bigSigma0 st.a + majFn st.a st.b st.c)
    rounds rest
      ⟨w32 (t1 + t2), st.a, st.b, st.c, w32 (st.d + t1), st.e, st.f, st.g⟩

def processBlock (st : Hash8) (block : List Nat) : Hash8 :=
  let ws := schedule (toWords block)
  let r := rounds (ws.zip k256) st
  ⟨w32 (st.a + r.a), w32 (st.b + r.b), w32 (st.c + r.c), w32 (st.d + r.d),
   w32 (st.e + r.e), w32 (st.f + r.f), w32 (st.g + r.g), w32 (st.h + r.h)⟩

def lenBytes64 (bitLen : Nat) : List Nat :=
  [(bitLen >>> 56) % 256, (bitLen >>> 48) % 256, (bitLen >>> 40) % 256,
   (bitLen >>> 32) % 256, (bitLen >>> 24) % 256, (bitLen >>> 16) % 256,
   (bitLen >>> 8) % 256, bitLen % 256]

def padMessage (msg : List Nat) : List Nat :=
  let len := msg.length
  let zeros := (64 - ((len + 9) % 64)) % 64
  msg ++ [0x80] ++ List.replicate zeros 0 ++ lenBytes64 (len * 8)

def chunksAux : Nat → List Nat → List (List Nat)
  | 0, _ => []
  | fuel + 1, l =>
    if l.isEmpty then [] else l.take 64 :: chunksAux fuel (l.drop 64)

def chunksOf64 (l : List Nat) : List (List Nat) :=
  chunksAux l.length l

def wordBytes (w : Nat) : List Nat :=
  [(w >>> 24) % 256, (w >>> 16) % 256, (w >>> 8) % 256, w % 256]

def hashToBytes (st : Hash8) : List Nat :=
  wordBytes st.a ++ wordBytes st.b ++ wordBytes st.c ++ wordBytes st.d ++
  wordBytes st.e ++ wordBytes st.f ++ wordBytes st.g ++ wordBytes st.h

def sha256 (msg : List Nat) : List Nat :=
  hashToBytes (List.foldl processBlock initHash (chunksOf64 (padMessage msg)))

/-- RFC 2104 HMAC instantiated with SHA-256 (block size 64 bytes). -/
def hmacSha256 (key msg : List Nat) : List Nat :=
  let k1 := if key.length > 64 then sha256 key else key
  let k2 := k1 ++ List.replicate (64 - k1.length) 0
  let ipadded := k2.map (fun b => b ^^^ 0x36)
  let opadded := k2.map (fun b => b ^^^ 0x5c)
  sha256 (opadded ++ sha256 (ipadded ++ msg))

def hexChars : List Char := "0123456789abcdef".toList

def hexDigit (n : Nat) : Char := hexChars.getD n '0'

def byteToHex (b : Nat) : List Char := [hexDigit (b / 16), hexDigit (b % 16)]

/-- Lowercase hexadecimal encoding, the semantics of `hmac.digest('hex')`. -/
def hexEncode (bytes : List Nat) : String :=
  String.mk (List.flatten (bytes.map byteToHex))

/-- UTF-8 encoding of one Unicode scalar value. -/
def utf8Bytes (n : Nat) : List Nat :=
  if n < 0x80 then [n]
  else if n < 0x800 then
    [0xc0 ||| (n >>> 6), 0x80 ||| (n &&& 0x3f)]
  else if n < 0x10000 then
    [0xe0 ||| (n >>> 12), 0x80 ||| ((n >>> 6) &&& 0x3f), 0x80 ||| (n &&& 0x3f)]
  else
    [0xf0 ||| (n >>> 18), 0x80 ||| ((n >>> 12) &&& 0x3f),
     0x80 ||| ((n >>> 6) &&& 0x3f), 0x80 ||| (n &&& 0x3f)]

/-- The UTF-8 bytes of a string: what Node hashes when a JS string is passed
to `hmac.update`. -/
def strBytes (s : String) : List Nat :=
  List.flatten (s.toList.map (fun c => utf8Bytes c.toNat))

/-! ### Request / response data (Express and axios objects) -/

inductive Body where
  | noBody
  | textBody (s : String)
  | jsonBody
  | bufferBody (bytes : List Nat)
  | errorJson (error message : String)
deriving DecidableEq

/-- `req.body && typeof req.body === 'object' && !Buffer.isBuffer(req.body)`. -/
def bodyIsPlainObject : Body → Bool
  | .jsonBody => true
  | _ => false

/-- The slice of an Express request the embedded code reads. -/
structure Req where
  method : String
  originalUrl : Option String
  url : String
  headers : List (String × String)
  body : Body
deriving DecidableEq

/-- `req.originalUrl || req.url` (empty string is falsy). -/
def rawUrl (req : Req) : String :=
  match req.originalUrl with
  | some s => if s = "" then req.url else s
  | none => req.url

/-! ### Canonical signer (src/signing.js) -/

/-- `METHOD\nPATH_AND_QUERY\nTIMESTAMP\n`. -/
def buildCanonicalString (method pathAndQuery timestamp : String) : String :=
  method ++ "\n" ++ pathAndQuery ++ "\n" ++ timestamp ++ "\n"

/-- `crypto.createHmac('sha256', secret).update(canonicalString).digest('hex')`. -/
def computeSignature (secret canonicalString : String) : String :=
  hexEncode (hmacSha256 (strBytes secret) (strBytes canonicalString))

/-- `url.startsWith('/')`: the first character is a slash. -/
def startsWithSlash (s : String) : Bool :=
  match s.toList with
  | [] => false
  | c :: _ => c = '/'

/-- `req.originalUrl || req.url`, with a leading slash prefixed when absent. -/
def extractPathAndQuery (req : Req) : String :=
  let u := rawUrl req
  if startsWithSlash u then u else "/" ++ u

/-- `signRequest(secret, req, timestamp)` from the current signing.js. -/
def signRequest (secret : String) (req : Req) (timestamp : String) : String :=
  computeSignature secret
    (buildCanonicalString (jsToUpper req.method) (extractPathAndQuery req) timestamp)

/-- JS truthiness on an optional header value: an empty string is falsy. -/
def truthyOpt : Option String → Option String
  | some v => if v = "" then none else some v
  | none => none

/-- `req.headers['x-timestamp'] || req.headers['X-Timestamp'] || null`
(legacy signing.js); empty strings are falsy at each step of the chain. -/
def getTimestampFromHeader (headers : List (String × String)) : Option String :=
  match truthyOpt (lookupA headers "x-timestamp") with
  | some v => some v
  | none => truthyOpt (lookupA headers "X-Timestamp")

/-- `signRequest(secret, req)` from the legacy signing.js: reads the
timestamp from the headers and throws when it is missing. -/
def legacySignRequest (secret : String) (req : Req) : Except String String :=
  match getTimestampFromHeader req.headers with
  | none => .error "X-Timestamp header is required"
  | some timestamp =>
    .ok (computeSignature secret
      (buildCanonicalString (jsToUpper req.method) (extractPathAndQuery req) timestamp))

/-! ### Signature middleware

The current variant always stamps a fresh server timestamp into
`x-hmac-timestamp`, signs, and stores the signature in `x-hmac-signature`.
The legacy variant reads the inbound timestamp header and, when it is
missing, generates one and stores it under `X-Timestamp` before fetching the
secret and signing; errors surface as status 500, never 400. -/

def createSignatureMiddleware (serverNow secret : String) (req : Req) : Req :=
  let req1 := { req with headers := insertA req.headers "x-hmac-timestamp" serverNow }
  let signature := signRequest secret req1 serverNow
  { req1 with headers := insertA req1.headers "x-hmac-signature" signature }

/-- Outcome of the legacy middleware: either the request continues to the
forwarding handler (with mutated headers) or a JSON error response is sent.
`cacheCalls` counts the calls made to the secret cache on this path. -/
inductive MwResult where
  | proceed (req : Req)
  | respond (status : Nat) (error message : String)
deriving DecidableEq

def isProceed : MwResult → Bool
  | .proceed _ => true
  | .respond _ _ _ => false

structure MwOutcome where
  result : MwResult
  cacheCalls : Nat
deriving DecidableEq

def legacyCreateSignatureMiddleware (serverNow secret : String) (req : Req) :
    MwOutcome :=
  let req1 :=
    match getTimestampFromHeader req.headers with
    | some _ => req
    | none => { req with headers := insertA req.headers "X-Timestamp" serverNow }
  -- await getSecret(HMAC_SECRET_NAME, AWS_REGION): one call to the cache
  match legacySignRequest secret req1 with
  | .ok signature =>
    { result := .proceed { req1 with headers := insertA req1.headers "X-Signature" signature },
      cacheCalls := 1 }
  | .error msg =>
    { result := .respond 500 "Failed to create signature" msg, cacheCalls := 1 }

/-! ### Proxy engine: forwarding configuration (jwt-generator.js catch-all) -/

structure AxiosConfig where
  method : String
  url : String
  headers : List (String × String)
  data : Body
  validateStatus : Nat → Bool
  timeout : Nat

/-- `!headers['content-type']` : key absent or mapped to an empty string. -/
def falsyHeader (headers : List (String × String)) (k : String) : Prop :=
  lookupA headers k = none ∨ lookupA headers k = some ""

instance (headers : List (String × String)) (k : String) :
    Decidable (falsyHeader headers k) := by
  unfold falsyHeader; infer_instance

def insertOptA (h : List (String × String)) (k : String) :
    Option String → List (String × String)
  | some v => insertA h k v
  | none => eraseA h k

/-- The axios request configuration built by the catch-all proxy handler:
target URL, copied headers minus `host` and `content-length`, a default
`content-type` for JSON object bodies lacking one, the HMAC headers,
the body, `validateStatus: () => true` and a 30000 ms timeout. -/
def buildProxyConfig (baseUrl : String) (req : Req) : AxiosConfig :=
  let targetUrl := baseUrl ++ rawUrl req
  let h0 := eraseA (eraseA req.headers "host") "content-length"
  let h1 :=
    if bodyIsPlainObject req.body = true ∧ falsyHeader h0 "content-type"
    then insertA h0 "content-type" "application/json" else h0
  let h2 := insertOptA h1 "x-hmac-signature" (lookupA req.headers "x-hmac-signature")
  let h3 := insertOptA h2 "x-hmac-timestamp" (lookupA req.headers "x-hmac-timestamp")
  { method := req.method, url := targetUrl, headers := h3, data := req.body,
    validateStatus := fun _ => true, timeout := 30000 }

/-! ### Proxy engine: response relay and transport-error mapping -/

structure UpstreamResp where
  status : Nat
  headers : List (String × String)
  data : Body
deriving DecidableEq

structure ClientResp where
  status : Nat
  headers : List (String × String)
  body : Body
deriving DecidableEq

def headersToSkip : List String := ["connection", "transfer-encoding", "content-encoding"]

def filterRelayHeaders : List (String × String) → List (String × String)
  | [] => []
  | (k, v) :: rest =>
    if jsToLower k ∈ headersToSkip then filterRelayHeaders rest
    else (k, v) :: filterRelayHeaders rest

/-- The Relayed step: `res.status(response.status)`, `res.setHeader` for every
non-skipped upstream header, `res.send(response.data)`. -/
def relayResponse (resp : UpstreamResp) : ClientResp :=
  { status := resp.status,
    headers := filterRelayHeaders resp.headers,
    body := resp.data }

/-- What the catch block of the proxy handler sees of an axios error. -/
structure AxiosFailure where
  response : Option UpstreamResp
  code : Option String
  message : String
deriving DecidableEq

/-- The catch block of the catch-all proxy handler. -/
def mapProxyError (e : AxiosFailure) : ClientResp :=
  match e.response with
  | some r => { status := r.status, headers := [], body := r.data }
  | none =>
    if e.code = some "ECONNREFUSED" then
      { status := 502, headers := [],
        body := .errorJson "Bad Gateway" "Unable to connect to target server" }
    else if e.code = some "ETIMEDOUT" ∨ e.code = some "ECONNABORTED" then
      { status := 504, headers := [],
        body := .errorJson "Gateway Timeout" "Request to target server timed out" }
    else
      { status := 500, headers := [],
        body := .errorJson "Internal Server Error" e.message }

/-! ### Sample data for concrete evaluations -/

def sampleReq : Req :=
  { method := "post",
    originalUrl := some "/api/users?page=1&limit=10",
    url := "/api/users?page=1&limit=10",
    headers := [("content-type", "application/json"),
                ("x-hmac-signature", "sig"), ("x-hmac-timestamp", "ts")],
    body := .jsonBody }

def sampleReq2 : Req := { sampleReq with headers := [] }

/-- A request with no timestamp header, for the legacy middleware. -/
def noTsReq : Req :=
  { method := "GET",
    originalUrl := some "/api/users",
    url := "/api/users",
    headers := [("accept", "application/json")],
    body := .noBody }

def sampleTs : String := "2024-01-15T10:30:00.000Z"

/-- A cache state holding two resolved secrets in the default region. -/
def twoKeyState : CacheState :=
  ⟨[(cacheKey "a" "us-east-1", "va"), (cacheKey "b" "us-east-1", "vb")], [], 0⟩

/-- A cache state with one fetch in flight. -/
def pendState : CacheState := ⟨[], [(cacheKey "a" "r", 7)], 8⟩

/-- One epoch: two concurrent requests, the fetch resolves, a third request. -/
def okTrace : List CEvent :=
  [.req "a" "r", .req "a" "r", .ok "a" "r" "hunter2\n", .req "a" "r"]

/-- One epoch containing a failed fetch followed by a retry. -/
def failTrace : List CEvent :=
  [.req "a" "r", .fail "a" "r" "boom", .req "a" "r"]

/-- An upstream 404 response with a JSON body and a connection header. -/
def resp404 : UpstreamResp :=
  { status := 404,
    headers := [("content-type", "application/json"), ("Connection", "keep-alive")],
    data := .jsonBody }

/-- Is a remote fetch for cache key `k` outstanding, or a truthy value
cached, in state `s`?  (The situations in which `getSecret` does not start a
new remote fetch.) -/
def keyActive (s : CacheState) (k : String) : Bool :=
  (lookupA s.pending k).isSome || (cacheHitValue s k).isSome

/-- All values cached under `k` are truthy (non-empty). -/
def goodCache (s : CacheState) (k : String) : Prop :=
  ∀ v, lookupA s.cached k = some v → v ≠ ""

/-! ### Lemmas: association lists -/

theorem lookupA_insertA_self {β : Type} (h : List (String × β)) (k : String) (v : β) :
    lookupA (insertA h k v) k = some v := by
  induction h with
  | nil => simp [insertA, lookupA]
  | cons p rest ih =>
    obtain ⟨k2, w⟩ := p
    by_cases hk : k2 = k
    · simp [insertA, hk, lookupA]
    · simp [insertA, hk, lookupA, ih]

theorem lookupA_insertA_ne {β : Type} (h : List (String × β)) (k k2 : String) (v : β)
    (hne : k2 ≠ k) : lookupA (insertA h k v) k2 = lookupA h k2 := by
  induction h with
  | nil => simp [insertA, lookupA, Ne.symm hne]
  | cons p rest ih =>
    obtain ⟨k3, w⟩ := p
    by_cases hk : k3 = k
    · subst hk
      simp [insertA, lookupA, Ne.symm hne]
    · simp [insertA, hk, lookupA, ih]

theorem lookupA_eraseA_self {β : Type} (h : List (String × β)) (k : String) :
    lookupA (eraseA h k) k = none := by
  induction h with
  | nil => simp [eraseA, lookupA]
  | cons p rest ih =>
    obtain ⟨k2, w⟩ := p
    by_cases hk : k2 = k
    · simp [eraseA, hk, ih]
    · simp [eraseA, hk, lookupA, ih]

theorem lookupA_eraseA_ne {β : Type} (h : List (String × β)) (k k2 : String)
    (hne : k2 ≠ k) : lookupA (eraseA h k) k2 = lookupA h k2 := by
  induction h with
  | nil => simp [eraseA]
  | cons p rest ih =>
    obtain ⟨k3, w⟩ := p
    by_cases hk : k3 = k
    · subst hk
      simp [eraseA, lookupA, Ne.symm hne, ih]
    · simp [eraseA, hk, lookupA, ih]

/-! ### Lemmas: one step of the cache -/

theorem getSecretStep_of_hit {s : CacheState} {n r v : String}
    (h : cacheHitValue s (cacheKey n r) = some v) :
    getSecretStep s n r = (.hit v, s) := by
  simp [getSecretStep, h]

theorem getSecretStep_of_join {s : CacheState} {n r : String} {fid : Nat}
    (h1 : cacheHitValue s (cacheKey n r) = none)
    (h2 : lookupA s.pending (cacheKey n r) = some fid) :
    getSecretStep s n r = (.join fid, s) := by
  simp [getSecretStep, h1, h2]

theorem getSecretStep_of_idle {s : CacheState} {n r : String}
    (h1 : cacheHitValue s (cacheKey n r) = none)
    (h2 : lookupA s.pending (cacheKey n r) = none) :
    getSecretStep s n r =
      (.start s.nextId,
        { cached := s.cached,
          pending := insertA s.pending (cacheKey n r) s.nextId,
          nextId := s.nextId + 1 }) := by
  simp [getSecretStep, h1, h2]

/-- `getSecret` never writes the value cache. -/
theorem getSecretStep_cached (s : CacheState) (n r : String) :
    ((getSecretStep s n r).2).cached = s.cached := by
  unfold getSecretStep
  rcases hc : cacheHitValue s (cacheKey n r) with _ | v
  · rcases hp : lookupA s.pending (cacheKey n r) with _ | fid <;> simp [hc, hp]
  · simp [hc]

/-- `getSecret` touches the in-flight table only at its own cache key. -/
theorem getSecretStep_pending_ne (s : CacheState) (n r k : String)
    (hne : k ≠ cacheKey n r) :
    lookupA ((getSecretStep s n r).2).pending k = lookupA s.pending k := by
  unfold getSecretStep
  rcases hc : cacheHitValue s (cacheKey n r) with _ | v
  · rcases hp : lookupA s.pending (cacheKey n r) with _ | fid
    · simp [hc, hp, lookupA_insertA_ne _ _ _ _ hne]
    · simp [hc, hp]
  · simp [hc]

/-! ### Lemmas: fetch completion -/

theorem runFetch_ok (s : CacheState) (n r raw : String) :
    runFetch s n r (.ok raw) =
      (.ok (jsTrim raw),
        { cached := insertA s.cached (cacheKey n r) (jsTrim raw),
          pending := eraseA s.pending (cacheKey n r),
          nextId := s.nextId }) := rfl

theorem runFetch_error (s : CacheState) (n r msg : String) :
    runFetch s n r (.error msg) =
      (.error (fetchFailureMessage msg),
        { cached := s.cached,
          pending := eraseA s.pending (cacheKey n r),
          nextId := s.nextId }) := rfl

/-! ### Lemmas: traces -/

theorem cacheHitValue_congr {s2 s : CacheState} (k : String)
    (h : lookupA s2.cached k = lookupA s.cached k) :
    cacheHitValue s2 k = cacheHitValue s k := by
  unfold cacheHitValue; rw [h]

theorem keyActive_congr {s2 s : CacheState} (k : String)
    (hp : lookupA s2.pending k = lookupA s.pending k)
    (hc : lookupA s2.cached k = lookupA s.cached k) :
    keyActive s2 k = keyActive s k := by
  unfold keyActive
  rw [hp, cacheHitValue_congr k hc]

theorem goodCache_congr {s2 s : CacheState} (k : String)
    (hc : lookupA s2.cached k = lookupA s.cached k)
    (hg : goodCache s k) : goodCache s2 k := by
  intro v hv
  exact hg v (hc ▸ hv)

/-- Core counting argument for one epoch: in a well-formed trace with no
failed fetches and only truthy fetched values, the number of remote fetches
started for a key is zero when the key is already active, and otherwise one
exactly when the key is requested at all. -/
theorem runTrace_count (k : String) : ∀ (events : List CEvent) (s : CacheState),
    traceWF s events = true →
    noFailures events = true →
    okTrimsNonempty events = true →
    goodCache s k →
    (runTrace k s events).1 =
      (if keyActive s k then 0 else (if hasReqFor k events then 1 else 0)) := by
  intro events
  induction events with
  | nil =>
    intro s _ _ _ _
    simp [runTrace, hasReqFor]
  | cons e rest ih =>
    intro s hwf hnf hok hgood
    cases e with
    | req n r =>
      have hnf2 : noFailures rest = true := by simpa [noFailures] using hnf
      have hok2 : okTrimsNonempty rest = true := by simpa [okTrimsNonempty] using hok
      have hwf2 : traceWF (getSecretStep s n r).2 rest = true := by
        simpa [traceWF] using hwf
      by_cases hkey : cacheKey n r = k
      · subst hkey
        rcases hc : cacheHitValue s (cacheKey n r) with _ | v
        · rcases hp : lookupA s.pending (cacheKey n r) with _ | fid
          · -- idle key: this request starts the remote fetch
            have hstep := getSecretStep_of_idle hc hp
            have hact : keyActive s (cacheKey n r) = false := by
              simp [keyActive, hc, hp]
            rw [hstep] at hwf2
            have hpend2 :
                lookupA (insertA s.pending (cacheKey n r) s.nextId) (cacheKey n r)
                  = some s.nextId := lookupA_insertA_self _ _ _
            have htail := ih _ hwf2 hnf2 hok2 (by intro v hv; exact hgood v hv)
            have hact2 : keyActive
                { cached := s.cached,
                  pending := insertA s.pending (cacheKey n r) s.nextId,
                  nextId := s.nextId + 1 } (cacheKey n r) = true := by
              simp [keyActive, hpend2]
            rw [hact2, if_pos rfl] at htail
            simp [runTrace, hstep, htail, hact, hasReqFor]
          · -- a fetch is in flight: the request joins it
            have hstep := getSecretStep_of_join hc hp
            have hact : keyActive s (cacheKey n r) = true := by
              simp [keyActive, hp]
            rw [hstep] at hwf2
            have htail := ih _ hwf2 hnf2 hok2 hgood
            rw [hact, if_pos rfl] at htail
            simp [runTrace, hstep, htail, hact]
        · -- cache hit
          have hstep := getSecretStep_of_hit hc
          have hact : keyActive s (cacheKey n r) = true := by
            simp [keyActive, hc]
          rw [hstep] at hwf2
          have htail := ih _ hwf2 hnf2 hok2 hgood
          rw [hact, if_pos rfl] at htail
          simp [runTrace, hstep, htail, hact]
      · -- request for a different cache key: state at k is untouched
        have hkne : k ≠ cacheKey n r := fun h => hkey h.symm
        have hcached := getSecretStep_cached s n r
        have hclk : lookupA ((getSecretStep s n r).2).cached k = lookupA s.cached k := by
          rw [hcached]
        have hplk := getSecretStep_pending_ne s n r k hkne
        have htail := ih _ hwf2 hnf2 hok2 (goodCache_congr k hclk hgood)
        rw [keyActive_congr k hplk hclk] at htail
        have hreq : hasReqFor k (CEvent.req n r :: rest) = hasReqFor k rest := by
          simp [hasReqFor, hkey]
        simp only [runTrace, if_neg hkey, htail, hreq]
    | ok n r raw =>
      have hnf2 : noFailures rest = true := by simpa [noFailures] using hnf
      have hok2 : okTrimsNonempty rest = true := by
        simp [okTrimsNonempty] at hok; exact hok.2
      have htrim : (jsTrim raw) ≠ "" := by
        simp [okTrimsNonempty] at hok; exact hok.1
      have hwfp : (lookupA s.pending (cacheKey n r)).isSome = true ∧
          traceWF (runFetch s n r (.ok raw)).2 rest = true := by
        simpa [traceWF] using hwf
      have hreq : hasReqFor k (CEvent.ok n r raw :: rest) = hasReqFor k rest := by
        simp [hasReqFor]
      by_cases hkey : cacheKey n r = k
      · subst hkey
        have hact : keyActive s (cacheKey n r) = true := by
          simp only [keyActive, Bool.or_eq_true]
          exact Or.inl hwfp.1
        have hclk2 : lookupA ((runFetch s n r (.ok raw)).2).cached (cacheKey n r)
            = some (jsTrim raw) := by
          simp only [runFetch]
          exact lookupA_insertA_self _ _ _
        have hgood2 : goodCache (runFetch s n r (.ok raw)).2 (cacheKey n r) := by
          intro v hv
          rw [hclk2] at hv
          cases hv
          exact htrim
        have hact2 : keyActive (runFetch s n r (.ok raw)).2 (cacheKey n r) = true := by
          simp [keyActive, cacheHitValue, hclk2, htrim]
        have htail := ih _ hwfp.2 hnf2 hok2 hgood2
        rw [hact2, if_pos rfl] at htail
        simp [runTrace, htail, hact, hreq]
      · have hkne : k ≠ cacheKey n r := fun h => hkey h.symm
        have hclk : lookupA ((runFetch s n r (.ok raw)).2).cached k = lookupA s.cached k := by
          simp only [runFetch]
          exact lookupA_insertA_ne _ _ _ _ hkne
        have hplk : lookupA ((runFetch s n r (.ok raw)).2).pending k = lookupA s.pending k := by
          simp only [runFetch]
          exact lookupA_eraseA_ne _ _ _ hkne
        have htail := ih _ hwfp.2 hnf2 hok2 (goodCache_congr k hclk hgood)
        rw [keyActive_congr k hplk hclk] at htail
        simp only [runTrace, htail, hreq]
    | fail n r msg =>
      simp [noFailures] at hnf

/-- Once a truthy value is cached for a key and no fetch is in flight for it,
any further well-formed trace leaves the entry untouched, starts no remote
fetch for the key, and every request for the key hits the cached value. -/
theorem runTrace_persist (k v : String) (hv : v ≠ "") :
    ∀ (events : List CEvent) (s : CacheState),
    traceWF s events = true →
    lookupA s.cached k = some v →
    lookupA s.pending k = none →
    lookupA ((runTrace k s events).2).cached k = some v ∧
    lookupA ((runTrace k s events).2).pending k = none ∧
    (runTrace k s events).1 = 0 := by
  intro events
  induction events with
  | nil =>
    intro s _ hcv hpn
    exact ⟨hcv, hpn, rfl⟩
  | cons e rest ih =>
    intro s hwf hcv hpn
    cases e with
    | req n r =>
      have hwf2 : traceWF (getSecretStep s n r).2 rest = true := by
        simpa [traceWF] using hwf
      by_cases hkey : cacheKey n r = k
      · have hc : cacheHitValue s (cacheKey n r) = some v := by
          rw [hkey]; simp [cacheHitValue, hcv, hv]
        have hstep := getSecretStep_of_hit hc
        rw [hstep] at hwf2
        have := ih _ hwf2 hcv hpn
        simp only [runTrace, hstep, if_pos hkey]
        exact ⟨this.1, this.2.1, by simp [this.2.2]⟩
      · have hkne : k ≠ cacheKey n r := fun h => hkey h.symm
        have hclk : lookupA ((getSecretStep s n r).2).cached k = some v := by
          rw [getSecretStep_cached]; exact hcv
        have hplk : lookupA ((getSecretStep s n r).2).pending k = none := by
          rw [getSecretStep_pending_ne s n r k hkne]; exact hpn
        have := ih _ hwf2 hclk hplk
        simp only [runTrace, if_neg hkey]
        exact this
    | ok n r raw =>
      have hwfp : (lookupA s.pending (cacheKey n r)).isSome = true ∧
          traceWF (runFetch s n r (.ok raw)).2 rest = true := by
        simpa [traceWF] using hwf
      have hkne : k ≠ cacheKey n r := by
        intro h
        rw [← h, hpn] at hwfp
        simp at hwfp
      have hclk : lookupA ((runFetch s n r (.ok raw)).2).cached k = some v := by
        simp only [runFetch]
        rw [lookupA_insertA_ne _ _ _ _ hkne]; exact hcv
      have hplk : lookupA ((runFetch s n r (.ok raw)).2).pending k = none := by
        simp only [runFetch]
        rw [lookupA_eraseA_ne _ _ _ hkne]; exact hpn
      have := ih _ hwfp.2 hclk hplk
      simp only [runTrace]
      exact this
    | fail n r msg =>
      have hwfp : (lookupA s.pending (cacheKey n r)).isSome = true ∧
          traceWF (runFetch s n r (.error msg)).2 rest = true := by
        simpa [traceWF] using hwf
      have hkne : k ≠ cacheKey n r := by
        intro h
        rw [← h, hpn] at hwfp
        simp at hwfp
      have hclk : lookupA ((runFetch s n r (.error msg)).2).cached k = some v := by
        simp only [runFetch]
        exact hcv
      have hplk : lookupA ((runFetch s n r (.error msg)).2).pending k = none := by
        simp only [runFetch]
        rw [lookupA_eraseA_ne _ _ _ hkne]; exact hpn
      have := ih _ hwfp.2 hclk hplk
      simp only [runTrace]
      exact this

/-! ### Lemmas: digest shape -/

theorem hashToBytes_length (st : Hash8) : (hashToBytes st).length = 32 := rfl

theorem sha256_length (msg : List Nat) : (sha256 msg).length = 32 :=
  hashToBytes_length _

theorem wordBytes_lt (w : Nat) : ∀ b ∈ wordBytes w, b < 256 := by
  intro b hb
  simp only [wordBytes, List.mem_cons, List.not_mem_nil, or_false] at hb
  rcases hb with h | h | h | h <;> subst h <;> omega

theorem hashToBytes_lt (st : Hash8) : ∀ b ∈ hashToBytes st, b < 256 := by
  intro b hb
  simp only [hashToBytes, List.mem_append] at hb
  rcases hb with ((((((h | h) | h) | h) | h) | h) | h) | h <;>
    exact wordBytes_lt _ _ h

theorem sha256_lt (msg : List Nat) : ∀ b ∈ sha256 msg, b < 256 :=
  hashToBytes_lt _

theorem hmacSha256_length (key msg : List Nat) :
    (hmacSha256 key msg).length = 32 := sha256_length _

theorem hmacSha256_lt (key msg : List Nat) :
    ∀ b ∈ hmacSha256 key msg, b < 256 := sha256_lt _

theorem hexEncode_length (bytes : List Nat) :
    (hexEncode bytes).length = 2 * bytes.length := by
  show (List.flatten (bytes.map byteToHex)).length = 2 * bytes.length
  induction bytes with
  | nil => simp
  | cons b rest ih =>
    simp only [List.map_cons, List.flatten_cons, List.length_append, ih, byteToHex]
    simp [Nat.mul_succ, Nat.add_comm]

theorem hexDigit_mem (n : Nat) (h : n < 16) : hexDigit n ∈ hexChars := by
  interval_cases n <;> decide

theorem hexEncode_mem (bytes : List Nat) (hb : ∀ b ∈ bytes, b < 256) :
    ∀ c ∈ (hexEncode bytes).toList, c ∈ hexChars := by
  intro c hc
  have hc2 : c ∈ List.flatten (bytes.map byteToHex) := hc
  rw [List.mem_flatten] at hc2
  obtain ⟨l, hl, hcl⟩ := hc2
  rw [List.mem_map] at hl
  obtain ⟨b, hbmem, rfl⟩ := hl
  have hblt : b < 256 := hb b hbmem
  simp only [byteToHex, List.mem_cons, List.not_mem_nil, or_false] at hcl
  rcases hcl with h | h <;> subst h <;> exact hexDigit_mem _ (by omega)

/-! ### Claim C1 -/

/-- C1 (as frozen) is refuted on the failure path: in the epoch
`failTrace` = request, fetch failure, request — a legitimate (well-formed)
trace with no cache clear — two remote fetches are started for the single
key `a:r`, not exactly one. -/
theorem C1_epoch_counterexample :
    traceWF emptyCache failTrace = true
    ∧ (runTrace (cacheKey "a" "r") emptyCache failTrace).1 = 2 := by
  decide

/-- C1 (amended): (1) while a fetch is in flight for a key, a concurrent
`getSecret` for that key joins exactly the in-flight fetch (receiving its
eventual result) and leaves the state untouched — no second remote call;
(2) a remote fetch only ever starts when none is outstanding for the key,
so at most one is outstanding per key at any time; (3) in any well-formed
epoch (no cache clear) in which every fetch succeeds with a value that is
truthy after trimming, exactly one remote call is made per distinct
requested key, and none for unrequested keys. -/
theorem C1_request_coalescing :
    (∀ (s : CacheState) (n r : String) (fid : Nat),
      lookupA s.pending (cacheKey n r) = some fid →
      cacheHitValue s (cacheKey n r) = none →
      getSecretStep s n r = (.join fid, s))
    ∧ (∀ (s : CacheState) (n r : String) (i : Nat),
      (getSecretStep s n r).1 = .start i →
      lookupA s.pending (cacheKey n r) = none)
    ∧ (∀ (events : List CEvent) (k : String),
      traceWF emptyCache events = true →
      noFailures events = true →
      okTrimsNonempty events = true →
      (runTrace k emptyCache events).1 = if hasReqFor k events then 1 else 0) := by
  refine ⟨?_, ?_, ?_⟩
  · intro s n r fid hp hc
    exact getSecretStep_of_join hc hp
  · intro s n r i h
    rcases hc : cacheHitValue s (cacheKey n r) with _ | v
    · rcases hp : lookupA s.pending (cacheKey n r) with _ | fid
      · exact rfl
      · rw [getSecretStep_of_join hc hp] at h
        simp at h
    · rw [getSecretStep_of_hit hc] at h
      simp at h
  · intro events k hwf hnf hok
    have hgood : goodCache emptyCache k := by
      intro v hv
      simp [emptyCache, lookupA] at hv
    have hact : keyActive emptyCache k = false := by
      simp [keyActive, emptyCache, lookupA, cacheHitValue]
    have h := runTrace_count k events emptyCache hwf hnf hok hgood
    rw [hact] at h
    simpa using h

/-- Witness for C1: a concurrent call joins in-flight fetch 7; in the epoch
`okTrace` exactly one remote fetch is started for key `a:r`. -/
theorem C1_request_coalescing_witness :
    getSecretStep pendState "a" "r" = (.join 7, pendState)
    ∧ (runTrace (cacheKey "a" "r") emptyCache okTrace).1 = 1 := by
  refine ⟨C1_request_coalescing.1 pendState "a" "r" 7 (by decide) (by decide), ?_⟩
  have h := C1_request_coalescing.2.2 okTrace (cacheKey "a" "r")
    (by decide) (by decide) (by decide)
  exact h.trans (by decide)

/-! ### Claim C7 -/

/-- C7: when the remote fetch for a key fails, the rejection delivered to
the (coalesced) callers is the wrapped store failure message, the cache of
resolved values is untouched, the in-flight marker for the key is cleared,
and — as long as the key has no truthy cached value — the next `getSecret`
for it starts a fresh remote fetch. -/
theorem C7_failure_cleanup (s : CacheState) (n r msg : String) :
    (runFetch s n r (.error msg)).1 = .error (fetchFailureMessage msg)
    ∧ ((runFetch s n r (.error msg)).2).cached = s.cached
    ∧ lookupA ((runFetch s n r (.error msg)).2).pending (cacheKey n r) = none
    ∧ (cacheHitValue ((runFetch s n r (.error msg)).2) (cacheKey n r) = none →
        (getSecretStep ((runFetch s n r (.error msg)).2) n r).1
          = .start ((runFetch s n r (.error msg)).2).nextId) := by
  refine ⟨rfl, rfl, ?_, ?_⟩
  · simp only [runFetch]
    exact lookupA_eraseA_self _ _
  · intro hmiss
    have hp : lookupA ((runFetch s n r (.error msg)).2).pending (cacheKey n r) = none := by
      simp only [runFetch]
      exact lookupA_eraseA_self _ _
    rw [getSecretStep_of_idle hmiss hp]

/-- Witness for C7 at a concrete in-flight state. -/
theorem C7_failure_cleanup_witness :
    (runFetch pendState "a" "r" (.error "access denied")).1
      = .error "Failed to fetch secret from AWS Secrets Manager: access denied"
    ∧ (getSecretStep ((runFetch pendState "a" "r" (.error "access denied")).2) "a" "r").1
      = .start ((runFetch pendState "a" "r" (.error "access denied")).2).nextId := by
  refine ⟨(C7_failure_cleanup pendState "a" "r" "access denied").1, ?_⟩
  exact (C7_failure_cleanup pendState "a" "r" "access denied").2.2.2 (by decide)

/-! ### Claim C8 -/

/-- C8 (as frozen) is refuted when the fetched secret trims to the empty
string: the value is stored, but the JS truthiness test never sees it, so
the next `getSecret` for the key starts a second remote fetch instead of
returning the stored value. -/
theorem C8_empty_secret_counterexample :
    lookupA ((runFetch (getSecretStep emptyCache "a" "r").2 "a" "r"
        (.ok "\n")).2).cached (cacheKey "a" "r") = some ""
    ∧ (getSecretStep ((runFetch (getSecretStep emptyCache "a" "r").2 "a" "r"
        (.ok "\n")).2) "a" "r").1 = .start 1 := by
  decide

/-- C8 (amended): a successful fetch stores the value trimmed of surrounding
whitespace and resolves the callers with the trimmed value; whenever the
trimmed value is non-empty, the entry survives any further well-formed
epoch unchanged (no TTL), no further remote fetch is started for the key,
and every subsequent `getSecret` for the key returns the stored value
immediately. -/
theorem C8_store_trimmed_persist (s : CacheState) (n r raw : String)
    (events : List CEvent)
    (htrim : (jsTrim raw) ≠ "")
    (hwf : traceWF (runFetch s n r (.ok raw)).2 events = true) :
    (runFetch s n r (.ok raw)).1 = .ok (jsTrim raw)
    ∧ lookupA ((runFetch s n r (.ok raw)).2).cached (cacheKey n r) = some (jsTrim raw)
    ∧ (getSecretStep ((runFetch s n r (.ok raw)).2) n r).1 = .hit (jsTrim raw)
    ∧ lookupA ((runTrace (cacheKey n r) (runFetch s n r (.ok raw)).2 events).2).cached
        (cacheKey n r) = some (jsTrim raw)
    ∧ (runTrace (cacheKey n r) (runFetch s n r (.ok raw)).2 events).1 = 0 := by
  have hclk : lookupA ((runFetch s n r (.ok raw)).2).cached (cacheKey n r)
      = some (jsTrim raw) := by
    simp only [runFetch]
    exact lookupA_insertA_self _ _ _
  have hplk : lookupA ((runFetch s n r (.ok raw)).2).pending (cacheKey n r) = none := by
    simp only [runFetch]
    exact lookupA_eraseA_self _ _
  have hpersist := runTrace_persist (cacheKey n r) (jsTrim raw) htrim events _ hwf hclk hplk
  refine ⟨rfl, hclk, ?_, hpersist.1, hpersist.2.2⟩
  have hhit : cacheHitValue ((runFetch s n r (.ok raw)).2) (cacheKey n r)
      = some (jsTrim raw) := by
    simp [cacheHitValue, hclk, htrim]
  rw [getSecretStep_of_hit hhit]

/-- Witness for C8: a concrete fetch that resolves with a padded secret. -/
theorem C8_store_trimmed_persist_witness :
    (runFetch pendState "a" "r" (.ok " hunter2\n")).1 = .ok "hunter2"
    ∧ (getSecretStep ((runFetch pendState "a" "r" (.ok " hunter2\n")).2) "a" "r").1
      = .hit "hunter2" := by
  have h := C8_store_trimmed_persist pendState "a" "r" " hunter2\n"
    [.req "a" "r"] (by decide) (by decide)
  exact ⟨h.1, h.2.2.1⟩

/-! ### Claim C9 -/

/-- C9 (as frozen) is refuted: with `secretName` given and `region` absent,
`clearCache` does not clear the entire cache — it removes only the entry
for the named secret under the default region, leaving other entries in
place. -/
theorem C9_region_default_counterexample :
    lookupA (clearCache "us-east-1" twoKeyState (some "a") none).cached
        (cacheKey "b" "us-east-1") = some "vb"
    ∧ (clearCache "us-east-1" twoKeyState (some "a") none).cached ≠ [] := by
  decide

/-- C9 (amended): when `secretName` is given (and truthy), `clearCache`
removes exactly the entry (value and in-flight marker) for that secret
under the given region — or the default region when `region` is absent —
and leaves every other key untouched; the entire cache, in-flight markers
included, is cleared only when `secretName` is absent (or empty, hence
falsy). -/
theorem C9_clear_semantics (dflt : String) (s : CacheState) (n r : String)
    (hn : n ≠ "") :
    (lookupA (clearCache dflt s (some n) (some r)).cached (cacheKey n r) = none
      ∧ lookupA (clearCache dflt s (some n) (some r)).pending (cacheKey n r) = none
      ∧ (∀ k, k ≠ cacheKey n r →
          lookupA (clearCache dflt s (some n) (some r)).cached k = lookupA s.cached k
          ∧ lookupA (clearCache dflt s (some n) (some r)).pending k = lookupA s.pending k))
    ∧ (lookupA (clearCache dflt s (some n) none).cached (cacheKey n dflt) = none
      ∧ lookupA (clearCache dflt s (some n) none).pending (cacheKey n dflt) = none
      ∧ (∀ k, k ≠ cacheKey n dflt →
          lookupA (clearCache dflt s (some n) none).cached k = lookupA s.cached k
          ∧ lookupA (clearCache dflt s (some n) none).pending k = lookupA s.pending k))
    ∧ ((clearCache dflt s none (some r)).cached = []
      ∧ (clearCache dflt s none (some r)).pending = []
      ∧ (clearCache dflt s none none).cached = []
      ∧ (clearCache dflt s none none).pending = []) := by
  refine ⟨⟨?_, ?_, ?_⟩, ⟨?_, ?_, ?_⟩, rfl, rfl, rfl, rfl⟩
  · simp only [clearCache, if_neg hn, Option.getD]
    exact lookupA_eraseA_self _ _
  · simp only [clearCache, if_neg hn, Option.getD]
    exact lookupA_eraseA_self _ _
  · intro k hk
    constructor
    · simp only [clearCache, if_neg hn, Option.getD]
      exact lookupA_eraseA_ne _ _ _ hk
    · simp only [clearCache, if_neg hn, Option.getD]
      exact lookupA_eraseA_ne _ _ _ hk
  · simp only [clearCache, if_neg hn, Option.getD]
    exact lookupA_eraseA_self _ _
  · simp only [clearCache, if_neg hn, Option.getD]
    exact lookupA_eraseA_self _ _
  · intro k hk
    constructor
    · simp only [clearCache, if_neg hn, Option.getD]
      exact lookupA_eraseA_ne _ _ _ hk
    · simp only [clearCache, if_neg hn, Option.getD]
      exact lookupA_eraseA_ne _ _ _ hk

/-- Witness for C9 at the concrete two-entry state. -/
theorem C9_clear_semantics_witness :
    lookupA (clearCache "us-east-1" twoKeyState (some "a") (some "us-east-1")).cached
        (cacheKey "a" "us-east-1") = none
    ∧ lookupA (clearCache "us-east-1" twoKeyState (some "a") (some "us-east-1")).cached
        (cacheKey "b" "us-east-1") = some "vb"
    ∧ (clearCache "us-east-1" twoKeyState none none).cached = [] := by
  have h := C9_clear_semantics "us-east-1" twoKeyState "a" "us-east-1" (by decide)
  refine ⟨h.1.1, ?_, h.2.2.2.2.1⟩
  have h2 := (h.1.2.2 (cacheKey "b" "us-east-1") (by decide)).1
  rw [h2]
  decide

/-! ### Claim C2 -/

/-- C2: `signRequest` produces exactly the lowercase hex HMAC-SHA256, keyed
by the secret, of the canonical string `upper(method) + "\n" + pathAndQuery
+ "\n" + timestamp + "\n"` (three newline-terminated fields, body excluded);
it is deterministic in those inputs; and its output always has 64
characters, all lowercase hex digits. -/
theorem C2_signature_shape (secret : String) (req : Req) (ts : String) :
    signRequest secret req ts
      = hexEncode (hmacSha256 (strBytes secret)
          (strBytes (jsToUpper req.method ++ "\n" ++ extractPathAndQuery req
            ++ "\n" ++ ts ++ "\n")))
    ∧ (∀ (secret2 : String) (req2 : Req) (ts2 : String),
        secret = secret2 → req.method = req2.method →
        extractPathAndQuery req = extractPathAndQuery req2 → ts = ts2 →
        signRequest secret req ts = signRequest secret2 req2 ts2)
    ∧ (signRequest secret req ts).length = 64
    ∧ (∀ c ∈ (signRequest secret req ts).toList, c ∈ hexChars) := by
  refine ⟨rfl, ?_, ?_, ?_⟩
  · intro secret2 req2 ts2 h1 h2 h3 h4
    subst h1; subst h4
    unfold signRequest
    rw [h2, h3]
  · unfold signRequest computeSignature
    rw [hexEncode_length, hmacSha256_length]
  · intro c hc
    exact hexEncode_mem _ (hmacSha256_lt _ _) c hc

/-- Witness for C2 at a concrete request: determinism across two requests
agreeing on method and extracted path, and the 64-character shape. -/
theorem C2_signature_shape_witness :
    signRequest "secret" sampleReq sampleTs = signRequest "secret" sampleReq2 sampleTs
    ∧ (signRequest "secret" sampleReq sampleTs).length = 64 :=
  ⟨(C2_signature_shape "secret" sampleReq sampleTs).2.1 "secret" sampleReq2 sampleTs
      rfl rfl (by decide) rfl,
   (C2_signature_shape "secret" sampleReq sampleTs).2.2.1⟩

/-! ### Claim C3 -/

/-- C3 (as frozen) is refuted: in the legacy (caller-supplied-timestamp)
variant, a request with no timestamp header is not rejected with a 400-class
error and the secret cache is called — the middleware generates a server
timestamp, performs one cache call, signs, and proceeds to forwarding. -/
theorem C3_no_reject_counterexample :
    (legacyCreateSignatureMiddleware sampleTs "sek" noTsReq).cacheCalls = 1
    ∧ isProceed (legacyCreateSignatureMiddleware sampleTs "sek" noTsReq).result = true := by
  decide

/-- C3 (amended): in the legacy variant, a request lacking the timestamp
header is not rejected: the middleware falls back to a server-generated
timestamp stored under `X-Timestamp`, makes exactly one secret-cache call,
computes the signature over that server timestamp and proceeds; only the
bare legacy `signRequest`, called without the header, fails — with a plain
error (mapped by the middleware to 500, not 400), never a 400. -/
theorem C3_legacy_timestamp_fallback (now secret : String) (req : Req)
    (hts : getTimestampFromHeader req.headers = none)
    (hnow : now ≠ "") :
    legacyCreateSignatureMiddleware now secret req =
      { result := .proceed
          { req with headers :=
              (insertA (insertA req.headers "X-Timestamp" now) "X-Signature"
                (computeSignature secret
                  (buildCanonicalString (jsToUpper req.method) (extractPathAndQuery req) now))) },
        cacheCalls := 1 }
    ∧ legacySignRequest secret req = .error "X-Timestamp header is required" := by
  have hlo : truthyOpt (lookupA req.headers "x-timestamp") = none := by
    unfold getTimestampFromHeader at hts
    rcases h : truthyOpt (lookupA req.headers "x-timestamp") with _ | v
    · rfl
    · rw [h] at hts
      simp at hts
  constructor
  · have hts1 : getTimestampFromHeader
        (insertA req.headers "X-Timestamp" now) = some now := by
      unfold getTimestampFromHeader
      rw [lookupA_insertA_ne _ _ _ _ (by decide), hlo,
        lookupA_insertA_self]
      simp [truthyOpt, hnow]
    have hurl : extractPathAndQuery
        { req with headers := insertA req.headers "X-Timestamp" now }
        = extractPathAndQuery req := rfl
    simp only [legacyCreateSignatureMiddleware, hts, legacySignRequest, hts1, hurl]
  · unfold legacySignRequest
    rw [hts]

/-- Witness for C3's amended statement at the concrete header-less request. -/
theorem C3_legacy_timestamp_fallback_witness :
    legacyCreateSignatureMiddleware sampleTs "sek" noTsReq =
      { result := .proceed
          { noTsReq with headers :=
              (insertA (insertA noTsReq.headers "X-Timestamp" sampleTs) "X-Signature"
                (computeSignature "sek"
                  (buildCanonicalString (jsToUpper noTsReq.method)
                    (extractPathAndQuery noTsReq) sampleTs))) },
        cacheCalls := 1 }
    ∧ legacySignRequest "sek" noTsReq = .error "X-Timestamp header is required" :=
  C3_legacy_timestamp_fallback sampleTs "sek" noTsReq (by decide) (by decide)

/-! ### Claim C4 -/

/-- C4: the outbound request built by the Forwarding step targets
`baseUrl ++ originalUrl`, keeps the method, drops the `host` and
`content-length` headers, carries the injected signature and timestamp
headers, preserves every other inbound header unchanged (the guard on
`content-type` excludes only an empty-valued header, which express could
not have produced together with a parsed JSON body), uses a 30000 ms
timeout, and accepts every upstream status code. -/
theorem C4_forward_config (baseUrl : String) (req : Req) (sigv tsv : String)
    (hsig : lookupA req.headers "x-hmac-signature" = some sigv)
    (hts : lookupA req.headers "x-hmac-timestamp" = some tsv) :
    (buildProxyConfig baseUrl req).url = baseUrl ++ rawUrl req
    ∧ (buildProxyConfig baseUrl req).method = req.method
    ∧ lookupA (buildProxyConfig baseUrl req).headers "host" = none
    ∧ lookupA (buildProxyConfig baseUrl req).headers "content-length" = none
    ∧ lookupA (buildProxyConfig baseUrl req).headers "x-hmac-signature" = some sigv
    ∧ lookupA (buildProxyConfig baseUrl req).headers "x-hmac-timestamp" = some tsv
    ∧ (∀ k v, k ≠ "host" → k ≠ "content-length" → (k = "content-type" → v ≠ "") →
        lookupA req.headers k = some v →
        lookupA (buildProxyConfig baseUrl req).headers k = some v)
    ∧ (buildProxyConfig baseUrl req).timeout = 30000
    ∧ (∀ st, (buildProxyConfig baseUrl req).validateStatus st = true) := by
  have hheaders : (buildProxyConfig baseUrl req).headers =
      insertA (insertA
        (if bodyIsPlainObject req.body = true ∧
            falsyHeader (eraseA (eraseA req.headers "host") "content-length") "content-type"
         then insertA (eraseA (eraseA req.headers "host") "content-length")
            "content-type" "application/json"
         else eraseA (eraseA req.headers "host") "content-length")
        "x-hmac-signature" sigv) "x-hmac-timestamp" tsv := by
    simp only [buildProxyConfig, hsig, hts, insertOptA]
  have hH1ne : ∀ k2, k2 ≠ "content-type" →
      lookupA (if bodyIsPlainObject req.body = true ∧
          falsyHeader (eraseA (eraseA req.headers "host") "content-length") "content-type"
        then insertA (eraseA (eraseA req.headers "host") "content-length")
          "content-type" "application/json"
        else eraseA (eraseA req.headers "host") "content-length") k2
      = lookupA (eraseA (eraseA req.headers "host") "content-length") k2 := by
    intro k2 hk2
    split
    · exact lookupA_insertA_ne _ _ _ _ hk2
    · rfl
  refine ⟨rfl, rfl, ?_, ?_, ?_, ?_, ?_, rfl, fun st => rfl⟩
  · rw [hheaders,
      lookupA_insertA_ne _ _ _ _ (by decide),
      lookupA_insertA_ne _ _ _ _ (by decide),
      hH1ne _ (by decide),
      lookupA_eraseA_ne _ _ _ (by decide)]
    exact lookupA_eraseA_self _ _
  · rw [hheaders,
      lookupA_insertA_ne _ _ _ _ (by decide),
      lookupA_insertA_ne _ _ _ _ (by decide),
      hH1ne _ (by decide)]
    exact lookupA_eraseA_self _ _
  · rw [hheaders, lookupA_insertA_ne _ _ _ _ (by decide)]
    exact lookupA_insertA_self _ _ _
  · rw [hheaders]
    exact lookupA_insertA_self _ _ _
  · intro k v hkh hkl hct hv
    rw [hheaders]
    by_cases hk1 : k = "x-hmac-timestamp"
    · subst hk1
      rw [hv] at hts
      cases hts
      exact lookupA_insertA_self _ _ _
    · rw [lookupA_insertA_ne _ _ _ _ hk1]
      by_cases hk2 : k = "x-hmac-signature"
      · subst hk2
        rw [hv] at hsig
        cases hsig
        exact lookupA_insertA_self _ _ _
      · rw [lookupA_insertA_ne _ _ _ _ hk2]
        have h0 : lookupA (eraseA (eraseA req.headers "host") "content-length") k
            = some v := by
          rw [lookupA_eraseA_ne _ _ _ hkl, lookupA_eraseA_ne _ _ _ hkh]
          exact hv
        by_cases hk3 : k = "content-type"
        · subst hk3
          split
          · rename_i hcond
            rcases hcond.2 with hnone | hempty
            · rw [h0] at hnone
              cases hnone
            · rw [h0] at hempty
              cases hempty
              exact absurd rfl (hct rfl)
          · exact h0
        · rw [hH1ne _ hk3]
          exact h0

/-- Witness for C4 at the concrete sample request. -/
theorem C4_forward_config_witness :
    (buildProxyConfig "http://backend:8080" sampleReq).url
      = "http://backend:8080" ++ rawUrl sampleReq
    ∧ lookupA (buildProxyConfig "http://backend:8080" sampleReq).headers "host" = none
    ∧ lookupA (buildProxyConfig "http://backend:8080" sampleReq).headers "content-type"
      = some "application/json" := by
  have h := C4_forward_config "http://backend:8080" sampleReq "sig" "ts"
    (by decide) (by decide)
  refine ⟨h.1, h.2.2.1, ?_⟩
  exact h.2.2.2.2.2.2.1 "content-type" "application/json"
    (by decide) (by decide) (fun _ => by decide) (by decide)

/-! ### Claim C5 -/

/-- C5: a received upstream response is relayed with its status code
verbatim, its body verbatim, and its headers verbatim except that
`connection`, `transfer-encoding` and `content-encoding` (matched
case-insensitively) are stripped. -/
theorem C5_relay_verbatim (resp : UpstreamResp) :
    (relayResponse resp).status = resp.status
    ∧ (relayResponse resp).body = resp.data
    ∧ (∀ k v, (k, v) ∈ (relayResponse resp).headers ↔
        ((k, v) ∈ resp.headers ∧ jsToLower k ∉ headersToSkip)) := by
  refine ⟨rfl, rfl, ?_⟩
  intro k v
  show (k, v) ∈ filterRelayHeaders resp.headers ↔ _
  induction resp.headers with
  | nil => simp [filterRelayHeaders]
  | cons p rest ih =>
    obtain ⟨k2, v2⟩ := p
    by_cases hsk : jsToLower k2 ∈ headersToSkip
    · rw [filterRelayHeaders, if_pos hsk, ih]
      simp only [List.mem_cons]
      constructor
      · rintro ⟨hm, hns⟩
        exact ⟨Or.inr hm, hns⟩
      · rintro ⟨heq | hm, hns⟩
        · rw [Prod.mk.injEq] at heq
          rw [heq.1] at hns
          exact absurd hsk hns
        · exact ⟨hm, hns⟩
    · rw [filterRelayHeaders, if_neg hsk]
      simp only [List.mem_cons, ih]
      constructor
      · rintro (heq | ⟨hm, hns⟩)
        · rw [Prod.mk.injEq] at heq
          rw [heq.1, heq.2]
          exact ⟨Or.inl rfl, heq.1 ▸ hsk⟩
        · exact ⟨Or.inr hm, hns⟩
      · rintro ⟨heq | hm, hns⟩
        · exact Or.inl heq
        · exact Or.inr ⟨hm, hns⟩

/-- Witness for C5: an upstream 404 with a JSON body is relayed with
status 404 and the identical body; its `content-type` header survives and
its `Connection` header is stripped. -/
theorem C5_relay_verbatim_witness :
    (relayResponse resp404).status = 404
    ∧ (relayResponse resp404).body = .jsonBody
    ∧ ("content-type", "application/json") ∈ (relayResponse resp404).headers
    ∧ ("Connection", "keep-alive") ∉ (relayResponse resp404).headers := by
  have h := C5_relay_verbatim resp404
  refine ⟨h.1, h.2.1, ?_, ?_⟩
  · exact (h.2.2 "content-type" "application/json").mpr ⟨by decide, by decide⟩
  · intro hm
    have h2 := (h.2.2 "Connection" "keep-alive").mp hm
    exact absurd (by decide) h2.2

/-! ### Claim C6 -/

/-- C6: an upstream call that fails without a response is mapped to 502
with the Bad Gateway JSON body on a connection-refused error, to 504 with
the Gateway Timeout JSON body on a timeout (`ETIMEDOUT` or axios's
`ECONNABORTED`), and to 500 with the raw error message for any other
transport failure. -/
theorem C6_transport_error_mapping (e : AxiosFailure) (hnr : e.response = none) :
    (e.code = some "ECONNREFUSED" →
      mapProxyError e =
        ⟨502, [], .errorJson "Bad Gateway" "Unable to connect to target server"⟩)
    ∧ ((e.code = some "ETIMEDOUT" ∨ e.code = some "ECONNABORTED") →
      mapProxyError e =
        ⟨504, [], .errorJson "Gateway Timeout" "Request to target server timed out"⟩)
    ∧ (e.code ≠ some "ECONNREFUSED" → e.code ≠ some "ETIMEDOUT" →
      e.code ≠ some "ECONNABORTED" →
      mapProxyError e = ⟨500, [], .errorJson "Internal Server Error" e.message⟩) := by
  refine ⟨?_, ?_, ?_⟩
  · intro hc
    simp [mapProxyError, hnr, hc]
  · intro hc
    rcases hc with hc | hc <;> simp [mapProxyError, hnr, hc]
  · intro h1 h2 h3
    simp [mapProxyError, hnr, h1, h2, h3]

/-- Witness for C6 at the three kinds of transport failures. -/
theorem C6_transport_error_mapping_witness :
    mapProxyError ⟨none, some "ECONNREFUSED", "connect ECONNREFUSED"⟩
      = ⟨502, [], .errorJson "Bad Gateway" "Unable to connect to target server"⟩
    ∧ mapProxyError ⟨none, some "ECONNABORTED", "timeout of 30000ms exceeded"⟩
      = ⟨504, [], .errorJson "Gateway Timeout" "Request to target server timed out"⟩
    ∧ mapProxyError ⟨none, none, "socket hang up"⟩
      = ⟨500, [], .errorJson "Internal Server Error" "socket hang up"⟩ :=
  ⟨(C6_transport_error_mapping
      ⟨none, some "ECONNREFUSED", "connect ECONNREFUSED"⟩ rfl).1 rfl,
   (C6_transport_error_mapping
      ⟨none, some "ECONNABORTED", "timeout of 30000ms exceeded"⟩ rfl).2.1 (Or.inr rfl),
   (C6_transport_error_mapping
      ⟨none, none, "socket hang up"⟩ rfl).2.2 (by decide) (by decide) (by decide)⟩

/-! ### Claim C10 -/

/-- C10: the cache key `secretName + ":" + region` is not injective —
`("a:b", "c")` and `("a", "b:c")` are distinct pairs with the same key, so
after the secret for `("a:b", "c")` resolves, a `getSecret("a", "b:c")`
call is served that other pair's value from the cache. -/
theorem C10_cache_key_collision :
    cacheKey "a:b" "c" = cacheKey "a" "b:c"
    ∧ (("a:b", "c") : String × String) ≠ ("a", "b:c")
    ∧ (getSecretStep ((runFetch (getSecretStep emptyCache "a:b" "c").2 "a:b" "c"
        (.ok "hunter2")).2) "a" "b:c").1 = .hit "hunter2" := by
  refine ⟨rfl, by decide, by decide⟩

end CarShopProxy
